/-
  Verification development for the ARPANET host-side protocol core
  (mini/src/waits-ncpd/waitsconnect.c, mini/src/bbn-ncc/imp.c,
  mini/src/bbn-ncc/ncp.c).

  The C sources are shallowly embedded: byte buffers become `List Nat`
  (bytes) or `Nat → Nat` functions (raw buffers indexed past the message
  end, as the C code can do), machine integers become `Nat`/`Int` — with
  an explicit two's-complement reduction (`wrap32`) at the one place a
  32-bit `int` can actually overflow, the uncapped `send_allocation +=
  messages` — and side effects (outbound IMP messages) become explicit
  lists of emitted messages.  Real time (sleep calls) is not modelled;
  the event-loop tick counter is.
-/
import Mathlib

set_option maxHeartbeats 1000000
set_option linter.unusedVariables false
set_option maxRecDepth 4096

/-! ## Byte helpers -/

/-- Big-endian 32-bit read from a raw byte buffer modelled as a function,
    mirroring `extract_socket` in waitsconnect.c (each C read yields a
    `uint8_t`, hence the `% 256`). -/
def be32f (d : Nat → Nat) (i : Nat) : Nat :=
  (d i % 256) * 16777216 + (d (i + 1) % 256) * 65536 +
  (d (i + 2) % 256) * 256 + d (i + 3) % 256

/-- The four big-endian bytes of a 32-bit value, mirroring `insert_socket`. -/
def be32bytes (n : Nat) : List Nat :=
  [n / 16777216 % 256, n / 65536 % 256, n / 256 % 256, n % 256]

/-- Big-endian 16-bit word at word index `wi` of a byte list, mirroring
    `get_word` in bbn-ncc/ncp.c. -/
def get_word (data : List Nat) (wi : Nat) : Nat :=
  data.getD (2 * wi) 0 * 256 + data.getD (2 * wi + 1) 0

/-! ## IMP framer (bbn-ncc/imp.c)

The framer state consists of the two datagram sequence counters, the
tracked peer HOST-READY bit (`imp_ready`, holding `flags & FLAG_READY`,
i.e. 0 or 2) and our own flags word (`imp_flags`).
`FLAG_LAST = 1`, `FLAG_READY = 2`. -/

structure Framer where
  rx_sequence : Nat
  tx_sequence : Nat
  imp_ready : Nat
  imp_flags : Nat
deriving DecidableEq

/-- `imp_init`: zero both sequence numbers and the flag state. -/
def imp_init : Framer :=
  { rx_sequence := 0, tx_sequence := 0, imp_ready := 0, imp_flags := 0 }

/-- The datagram built by `imp_send_message` for a payload of
    `payload.length / 2` 16-bit words: magic "H316", 32-bit tx sequence,
    word length including the leader word, flags with FLAG_LAST forced on. -/
def imp_send_datagram (f : Framer) (payload : List Nat) : List Nat :=
  [72, 51, 49, 54,
   f.tx_sequence / 16777216 % 256, f.tx_sequence / 65536 % 256,
   f.tx_sequence / 256 % 256, f.tx_sequence % 256,
   (payload.length / 2 + 1) / 256 % 256, (payload.length / 2 + 1) % 256,
   f.imp_flags / 256 % 256, (f.imp_flags % 256) ||| 1] ++ payload

/-- `imp_send_message`: emit one datagram and advance `tx_sequence`. -/
def imp_send_message (f : Framer) (payload : List Nat) : Framer × List Nat :=
  ({ f with tx_sequence := f.tx_sequence + 1 }, imp_send_datagram f payload)

/-- `imp_host_ready`: when the application toggles its ready bit, flip
    FLAG_READY in `imp_flags` and transmit one zero-payload datagram. -/
def imp_host_ready (f : Framer) (flag : Bool) : Framer × List (List Nat) :=
  if flag ∧ f.imp_flags &&& 2 = 0 then
    let f1 := { f with imp_flags := f.imp_flags ||| 2 }
    let r := imp_send_message f1 []
    (r.1, [r.2])
  else if ¬flag ∧ f.imp_flags &&& 2 ≠ 0 then
    let f1 := { f with imp_flags := f.imp_flags &&& 65533 }
    let r := imp_send_message f1 []
    (r.1, [r.2])
  else (f, [])

/-- Result of `imp_receive_message` for one inbound datagram:
    * `drop` — zero-length read or bad magic (state untouched, logged);
    * `reject` — bad sequence number, length 0 returned to the caller;
    * `deliver payload flagsParsed readyChanged` — datagram accepted;
      `flagsParsed` records whether the flags word was examined and
      `readyChanged` whether the peer-ready callback was invoked. -/
inductive RxResult where
  | drop
  | reject
  | deliver (payload : List Nat) (flagsParsed : Bool) (readyChanged : Bool)
deriving DecidableEq

/-- One iteration of the `imp_receive_message` loop in imp.c, processing a
    single received datagram `msg` (a byte list of length `n`). -/
def imp_receive_message (f : Framer) (msg : List Nat) : Framer × RxResult :=
  if msg.length = 0 then (f, .drop)
  else if msg.getD 0 0 = 72 ∧ msg.getD 1 0 = 51 ∧
          msg.getD 2 0 = 49 ∧ msg.getD 3 0 = 54 then
    let x := msg.getD 4 0 * 16777216 + msg.getD 5 0 * 65536 +
             msg.getD 6 0 * 256 + msg.getD 7 0
    -- sequence-number check, mirroring the if/else chain in the C
    if x = 0 ∧ f.rx_sequence ≠ 0 then
      imp_receive_body { f with rx_sequence := 0 + 1 } msg
    else if x < f.rx_sequence then (f, .reject)
    else imp_receive_body { f with rx_sequence := x + 1 } msg
  else (f, .drop)
where
  /-- The tail of the C function after the sequence number is accepted
      (and `rx_sequence` incremented): parse length and flags, deliver
      payload. -/
  imp_receive_body (f : Framer) (msg : List Nat) : Framer × RxResult :=
    let w := msg.getD 8 0 * 256 + msg.getD 9 0
    if w - 1 = 0 then (f, .deliver [] false false)
    else
      let flags := msg.getD 10 0 * 256 + msg.getD 11 0
      if flags &&& 2 ≠ f.imp_ready then
        ({ f with imp_ready := flags &&& 2 }, .deliver (msg.drop 12) true true)
      else (f, .deliver (msg.drop 12) true false)

/-- The 32-bit sequence number field of a framer datagram. -/
def dgramSeq (msg : List Nat) : Nat :=
  msg.getD 4 0 * 16777216 + msg.getD 5 0 * 65536 +
  msg.getD 6 0 * 256 + msg.getD 7 0

/-- Well-formed magic: the datagram starts with ASCII "H316". -/
def goodMagic (msg : List Nat) : Prop :=
  msg.getD 0 0 = 72 ∧ msg.getD 1 0 = 51 ∧ msg.getD 2 0 = 49 ∧ msg.getD 3 0 = 54

instance (msg : List Nat) : Decidable (goodMagic msg) := by
  unfold goodMagic; infer_instance

/-! ## Telemetry decoder (bbn-ncc/ncp.c) -/

/-- 1973 IMP Throughput record (leader subtype 0303, 59-byte payload). -/
structure Throughput1973 where
  imp_number : Nat
  message_type : Nat
  counter : Nat
  field1 : Nat
  pattern_0628 : Nat
  pattern_ffff : Nat
  variable_field : Nat
  raw_data : List Nat
deriving DecidableEq

/-- `decode_1973_throughput`: succeeds only on an exactly 59-byte payload. -/
def decode_1973_throughput (data : List Nat) (count : Nat) (imp_num : Nat) :
    Option Throughput1973 :=
  if count ≠ 59 then none
  else some
    { imp_number := imp_num
      message_type := 303
      counter := data.getD 8 0
      field1 := get_word data 5
      pattern_0628 := get_word data 8
      pattern_ffff := get_word data 11
      variable_field := get_word data 14
      raw_data := data.take 59 }

/-- 1973 IMP Status record (leader subtype 0302, 101-byte payload). -/
structure Status1973 where
  imp_number : Nat
  message_type : Nat
  word1 : Nat
  word2 : Nat
  word3 : Nat
  word4 : Nat
  word5 : Nat
  raw_data : List Nat
deriving DecidableEq

/-- `decode_1973_status`: succeeds only on an exactly 101-byte payload. -/
def decode_1973_status (data : List Nat) (count : Nat) (imp_num : Nat) :
    Option Status1973 :=
  if count ≠ 101 then none
  else some
    { imp_number := imp_num
      message_type := 302
      word1 := get_word data 0
      word2 := get_word data 1
      word3 := get_word data 2
      word4 := get_word data 3
      word5 := get_word data 4
      raw_data := data.take 101 }

/-- The decimal type code recovered from word 3 of a 1976-format message:
    three octal digits `d1 d2 d3` form `100*d1 + 10*d2 + d3`. -/
def word3_msg_type (data : List Nat) : Nat :=
  let word3 := get_word data 2
  (word3 / 64 % 8) * 100 + (word3 / 8 % 8) * 10 + word3 % 8

/-- The 1973-format dispatch at the head of `process_regular` in
    bbn-ncc/ncp.c for a REGULAR link-0 message: leader byte 5 selects the
    1973 family (0xC3 = throughput, 0xC2 = status) and the payload size
    must match exactly; everything else falls through to
    `process_ncc_status` (result `none` here). `length` is the framer word
    length, so the payload is `2*length - 9` bytes starting at byte 9. -/
def process_regular_1973 (packet : List Nat) (length : Nat) :
    Option (Throughput1973 ⊕ Status1973) :=
  let actual_data_bytes := 2 * length - 9
  let leader_type := packet.getD 5 0
  let imp_num := packet.getD 1 0 % 64
  if leader_type = 195 ∧ actual_data_bytes = 59 then
    (decode_1973_throughput (packet.drop 9) actual_data_bytes imp_num).map .inl
  else if leader_type = 194 ∧ actual_data_bytes = 101 then
    (decode_1973_status (packet.drop 9) actual_data_bytes imp_num).map .inr
  else none

/-! ## NCP engine (waits-ncpd/waitsconnect.c)

One connection record, a tick counter and the socket allocator.  Outbound
IMP traffic is modelled as a list of `OutMsg` values, one per
`imp_send_message` call; each constructor records exactly the fields the
corresponding `send_*` helper serialises into the packet.  Console I/O is
an external collaborator: bytes written to the console are not tracked,
and `connect_to_console` success is an environment bit (`console_ok`). -/

inductive ConnState where
  | CLOSED | LISTENING | ICP_PHASE1 | ICP_PHASE2 | ESTABLISHED | CLOSING
deriving DecidableEq

inductive TelnetProto where
  | PROTO_OLD | PROTO_NEW
deriving DecidableEq

/-- One outbound IMP message, tagged by the `send_*` helper that built it.
    `socketNumber` is the one-word data message built by
    `send_socket_number` (byte size 32, count 1, payload the 32-bit
    socket); `data` is a `send_data` message on a non-zero link. -/
inductive OutMsg where
  | nop
  | rrp (host : Nat)
  | rts (host lsock rsock link : Nat)
  | str (host lsock rsock size : Nat)
  | cls (host lsock rsock : Nat)
  | allMsg (host link messages bits : Nat)
  | socketNumber (host link socket : Nat)
  | data (host link : Nat) (bytes : List Nat)
deriving DecidableEq

/-- Is this a `send_data` message (the only kind that spends
    `send_allocation`)? -/
def OutMsg.isData : OutMsg → Bool
  | .data _ _ _ => true
  | _ => false

/-- Two's-complement reduction to a signed 32-bit value, the de-facto
    behaviour of overflowing arithmetic on the C `int send_allocation`
    (formally undefined behaviour in C; modelled as wrap-around). -/
def wrap32 (n : Int) : Int := (n + 2147483648) % 4294967296 - 2147483648

structure Conn where
  state : ConnState
  protocol : TelnetProto
  remote_host : Nat
  listen_socket : Nat
  icp_remote_socket : Nat
  icp_link : Nat
  data_socket : Nat
  data_recv_local : Nat
  data_recv_remote : Nat
  data_recv_link : Nat
  data_send_local : Nat
  data_send_remote : Nat
  data_send_link : Nat
  got_str : Bool
  got_rts : Bool
  /-- The C field is a 32-bit `int`.  It is kept in `[-2^31, 2^31)` by
      `SysInv`: the flush loop only ever decrements a positive value, so
      the sole operation that can leave the range is `handle_all`'s
      uncapped `+= messages`, which is reduced with `wrap32` there. -/
  send_allocation : Int
  last_all_time : Nat
  output_buffer : List Nat
  console_connected : Bool
  console_close_time : Nat
  console_login_time : Nat
  iac_state : Nat
  iac_cmd : Nat
deriving DecidableEq

structure Sys where
  conn : Conn
  time_tick : Nat
  next_data_socket : Nat
  console_ok : Bool
deriving DecidableEq

/-- `main`'s initialisation: `memset(&conn, 0, ...)`, state LISTENING,
    console disconnected, `next_data_socket = 100`, tick 0. -/
def initConn : Conn :=
  { state := .LISTENING, protocol := .PROTO_OLD, remote_host := 0,
    listen_socket := 0, icp_remote_socket := 0, icp_link := 0,
    data_socket := 0, data_recv_local := 0, data_recv_remote := 0,
    data_recv_link := 0, data_send_local := 0, data_send_remote := 0,
    data_send_link := 0, got_str := false, got_rts := false,
    send_allocation := 0, last_all_time := 0, output_buffer := [],
    console_connected := false, console_close_time := 0,
    console_login_time := 0, iac_state := 0, iac_cmd := 0 }

def initSys (console_ok : Bool) : Sys :=
  { conn := initConn, time_tick := 0, next_data_socket := 100,
    console_ok := console_ok }

/-- The common tail of `handle_rts`/`handle_str` once both `got_str` and
    `got_rts` hold: set ESTABLISHED, connect to the console (environment
    bit `console_ok`), on failure send CLS on both data socket pairs and
    fall back to LISTENING, on success start the 1-second login delay. -/
def establish (s : Sys) (c : Conn) : Sys × List OutMsg :=
  let c1 := { c with state := ConnState.ESTABLISHED }
  if s.console_ok then
    ({ s with conn := { c1 with
        console_connected := true
        console_login_time := s.time_tick + 1 } }, [])
  else
    ({ s with conn := { c1 with
        console_connected := false
        state := ConnState.LISTENING } },
     [.cls c1.remote_host c1.data_send_local c1.data_send_remote,
      .cls c1.remote_host c1.data_recv_local c1.data_recv_remote])

/-- `handle_rts` (waitsconnect.c:313).  `OLD_TELNET = 1`, `NEW_TELNET = 23`. -/
def handle_rts (s : Sys) (source remote_sock local_sock link : Nat) :
    Sys × List OutMsg :=
  if s.conn.state = .LISTENING then
    if local_sock ≠ 1 ∧ local_sock ≠ 23 then
      (s, [.cls source local_sock remote_sock])
    else
      ({ s with conn := { s.conn with
          state := ConnState.ICP_PHASE1
          remote_host := source
          listen_socket := local_sock
          icp_remote_socket := remote_sock
          icp_link := link
          protocol := if local_sock = 1 then .PROTO_OLD else .PROTO_NEW } },
       [.str source local_sock remote_sock 32])
  else if s.conn.state = .ICP_PHASE2 then
    if local_sock ≠ s.conn.data_send_local then (s, [])
    else
      let c := { s.conn with
        data_send_remote := remote_sock
        data_recv_link := link
        got_rts := true }
      if c.got_str ∧ c.got_rts then establish s c
      else ({ s with conn := c }, [])
  else (s, [])

/-- `handle_str` (waitsconnect.c:379).  The byte-size field is only logged
    by the C code, so it does not appear here. -/
def handle_str (s : Sys) (source remote_sock local_sock : Nat) :
    Sys × List OutMsg :=
  if s.conn.state = .ICP_PHASE2 then
    if local_sock ≠ s.conn.data_recv_local then (s, [])
    else
      let c := { s.conn with
        data_recv_remote := remote_sock
        got_str := true }
      if c.got_str ∧ c.got_rts then establish s c
      else ({ s with conn := c }, [])
  else (s, [])

/-- `handle_cls` (waitsconnect.c:422).  The logout write to the console is
    an external effect and is not tracked; arming the 3-second close timer
    is. -/
def handle_cls (s : Sys) (source remote_sock local_sock : Nat) :
    Sys × List OutMsg :=
  if s.conn.state = .CLOSED ∨ s.conn.state = .LISTENING then (s, [])
  else if s.conn.state = .ICP_PHASE2 ∧ local_sock = s.conn.listen_socket then
    (s, [])
  else
    let c1 := if s.conn.console_connected then
        { s.conn with console_close_time := s.time_tick + 3 }
      else s.conn
    let out := if s.conn.state = .ESTABLISHED ∨ s.conn.state = .ICP_PHASE2 then
        [OutMsg.cls source s.conn.data_send_local s.conn.data_send_remote,
         OutMsg.cls source s.conn.data_recv_local s.conn.data_recv_remote]
      else []
    ({ s with conn := { c1 with state := ConnState.LISTENING } }, out)

/-- The `flush_output_buffer` loop (waitsconnect.c:723): while the buffer
    is non-empty and allocation remains, emit up to 100 bytes per
    `send_data` message, each send decrementing `send_allocation`.  The
    decrement only ever applies to a value the loop guard has checked to
    be positive (and, by `SysInv`, below 2^31), so that `int` operation
    cannot overflow and plain subtraction is faithful.
    `fuel` is a structural bound on the number of iterations; the entry
    point passes `buf.length`, which suffices because every iteration
    consumes at least one buffered byte. -/
def flush_go (fuel : Nat) (host link : Nat) (buf : List Nat) (alloc : Int) :
    List Nat × Int × List OutMsg :=
  match fuel with
  | 0 => (buf, alloc, [])
  | fuel + 1 =>
    if 0 < buf.length ∧ 0 < alloc then
      let to_send := min buf.length 100
      let r := flush_go fuel host link (buf.drop to_send) (alloc - 1)
      (r.1, r.2.1, .data host link (buf.take to_send) :: r.2.2)
    else (buf, alloc, [])

def flush_output_buffer (host link : Nat) (buf : List Nat) (alloc : Int) :
    List Nat × Int × List OutMsg :=
  flush_go buf.length host link buf alloc

/-- `handle_all` (waitsconnect.c:460).  In ICP_PHASE1 on the ICP link:
    allocate the data socket pair, answer with the socket-number data
    message, CLS on the listen socket, STR and RTS for the two data
    paths, and enter ICP_PHASE2.  In ESTABLISHED on the send link: add
    `messages` to the allocation and flush.  The addition
    `conn.send_allocation += messages` is 32-bit `int` arithmetic with an
    attacker-controlled 16-bit `messages` and no cap, so it is modelled
    with two's-complement wrap-around (`wrap32`).  The `bits` field is
    received but not used, as in the C. -/
def handle_all (s : Sys) (source link messages bits : Nat) :
    Sys × List OutMsg :=
  if s.conn.state = .ICP_PHASE1 then
    if link ≠ s.conn.icp_link then (s, [])
    else
      let c := { s.conn with
        data_socket := s.next_data_socket
        data_recv_local := s.next_data_socket
        data_send_local := s.next_data_socket + 1
        data_send_link := 45
        got_str := false
        got_rts := false
        state := ConnState.ICP_PHASE2 }
      ({ s with conn := c, next_data_socket := s.next_data_socket + 2 },
       [.socketNumber source c.icp_link c.data_socket,
        .cls source c.listen_socket c.icp_remote_socket,
        .str source c.data_send_local (c.icp_remote_socket + 2) 8,
        .rts source c.data_recv_local (c.icp_remote_socket + 3) c.data_send_link])
  else if s.conn.state = .ESTABLISHED then
    if link ≠ s.conn.data_send_link then (s, [])
    else
      let r := flush_output_buffer s.conn.remote_host s.conn.data_send_link
                 s.conn.output_buffer (wrap32 (s.conn.send_allocation + messages))
      ({ s with conn := { s.conn with
          output_buffer := r.1
          send_allocation := r.2.1 } }, r.2.2)
  else (s, [])

/-- RFC 854 IAC state machine of `process_new_telnet`; console output is
    dropped, only the `iac_state`/`iac_cmd` fields are tracked.
    IAC = 255, DO = 253, DONT = 254, WILL = 251, WONT = 252, EC = 247. -/
def new_telnet_step (st : Nat × Nat) (b : Nat) : Nat × Nat :=
  if st.1 = 0 then
    if b = 255 then (1, st.2) else (0, st.2)
  else if st.1 = 1 then
    if b = 255 then (0, st.2)
    else if b = 253 ∨ b = 254 ∨ b = 251 ∨ b = 252 then (2, b)
    else (0, st.2)
  else (0, st.2)

def process_new_telnet (st : Nat × Nat) (data : List Nat) : Nat × Nat :=
  data.foldl new_telnet_step st

/-- The console bytes produced by `process_old_telnet` (given here for
    completeness; old-telnet processing changes no connection state).
    CR = 13, LF = 10; 0200–0205 are old-telnet commands; only 7-bit
    characters pass through. -/
def process_old_telnet : List Nat → List Nat
  | [] => []
  | [13] => [13, 10]
  | 13 :: 0 :: rest => 13 :: process_old_telnet rest
  | 13 :: 10 :: rest => 13 :: 10 :: process_old_telnet rest
  | 13 :: b :: rest => 13 :: 10 :: process_old_telnet (b :: rest)
  | 0 :: rest => process_old_telnet rest
  | b :: rest =>
    if 128 ≤ b ∧ b ≤ 133 then process_old_telnet rest
    else if b < 128 then b :: process_old_telnet rest
    else process_old_telnet rest

/-- `handle_data` (waitsconnect.c:517): only in ESTABLISHED on the
    receive link; run the telnet processor (console writes dropped, IAC
    state updated for new telnet) and replenish the client's window with
    ALL(10, 16000). -/
def handle_data (s : Sys) (source link : Nat) (data : List Nat) :
    Sys × List OutMsg :=
  if s.conn.state ≠ .ESTABLISHED then (s, [])
  else if link ≠ s.conn.data_recv_link then (s, [])
  else
    let c :=
      if s.conn.protocol = .PROTO_OLD then s.conn
      else
        let st := process_new_telnet (s.conn.iac_state, s.conn.iac_cmd) data
        { s.conn with iac_state := st.1, iac_cmd := st.2 }
    ({ s with conn := { c with last_all_time := s.time_tick } },
     [.allMsg s.conn.remote_host s.conn.data_recv_link 10 16000])

/-- `handle_console_input` (waitsconnect.c:739).  `input = none` models a
    read of `n ≤ 0` (EOF or error), `some bytes` a successful read of
    `bytes.length > 0` bytes (the C reads at most 100 at a time).  During
    the logout or login delay everything is discarded; on EOF outside a
    delay the console is disconnected and both data socket pairs closed;
    otherwise the bytes are appended to the 8000-byte output buffer
    (dropped when they do not fit) and the buffer is flushed. -/
def handle_console_input (s : Sys) (input : Option (List Nat)) :
    Sys × List OutMsg :=
  if 0 < s.conn.console_close_time then (s, [])
  else if 0 < s.conn.console_login_time then (s, [])
  else
    match input with
    | none =>
      ({ s with conn := { s.conn with
          console_connected := false
          state := ConnState.LISTENING } },
       [.cls s.conn.remote_host s.conn.data_send_local s.conn.data_send_remote,
        .cls s.conn.remote_host s.conn.data_recv_local s.conn.data_recv_remote])
    | some bytes =>
      let c := if s.conn.output_buffer.length + bytes.length ≤ 8000 then
          { s.conn with output_buffer := s.conn.output_buffer ++ bytes }
        else s.conn
      let r := flush_output_buffer c.remote_host c.data_send_link
                 c.output_buffer c.send_allocation
      ({ s with conn := { c with
          output_buffer := r.1
          send_allocation := r.2.1 } }, r.2.2)

/-- `periodic_tasks` (waitsconnect.c:827): when the login delay expires,
    write the login string to the console (not tracked) and grant the
    client ALL(10, 16000) on the receive link; when the logout delay
    expires, close the console. -/
def periodic_tasks (s : Sys) : Sys × List OutMsg :=
  let r1 :=
    if 0 < s.conn.console_login_time ∧ s.conn.console_login_time ≤ s.time_tick then
      ({ s with conn := { s.conn with
          console_login_time := 0
          last_all_time := s.time_tick } },
       [OutMsg.allMsg s.conn.remote_host s.conn.data_recv_link 10 16000])
    else (s, [])
  let s1 := r1.1
  if 0 < s1.conn.console_close_time ∧ s1.conn.console_close_time ≤ s1.time_tick then
    ({ s1 with conn := { s1.conn with
        console_connected := false
        console_close_time := 0 } }, r1.2)
  else (s1, r1.2)

/-- The `process_ncp` loop (waitsconnect.c:538).  `d` is the raw control
    payload as a byte buffer (the C points into a 200-byte packet buffer
    and indexes it without bound checks, so the buffer is a total
    function), `count` the declared byte count from the NCP header, and
    `i` the loop index.  The result carries the updated system state, the
    outbound messages, and the list of payload indices the C code reads —
    the opcode byte plus, for RTS/STR/CLS/ALL, the full fixed-size body
    that `handle_*` dereferences regardless of `count`.  An unknown
    opcode, or ERR, stops the parse.  `fuel` structurally bounds the
    iteration count; every iteration advances `i` by at least one, so the
    entry point's `fuel = count` is never exhausted while `i < count`. -/
def process_ncp_go (fuel : Nat) (s : Sys) (source : Nat) (d : Nat → Nat)
    (count i : Nat) : Sys × List OutMsg × List Nat :=
  match fuel with
  | 0 => (s, [], [])
  | fuel + 1 =>
    if i < count then
      let opcode := d i % 256
      if opcode = 0 then
        let r := process_ncp_go fuel s source d count (i + 1)
        (r.1, r.2.1, i :: r.2.2)
      else if opcode = 1 then
        let p := handle_rts s source (be32f d (i + 1)) (be32f d (i + 5))
                   (d (i + 9) % 256)
        let r := process_ncp_go fuel p.1 source d count (i + 10)
        (r.1, p.2 ++ r.2.1, List.range' i 10 ++ r.2.2)
      else if opcode = 2 then
        let p := handle_str s source (be32f d (i + 1)) (be32f d (i + 5))
        let r := process_ncp_go fuel p.1 source d count (i + 10)
        (r.1, p.2 ++ r.2.1, List.range' i 10 ++ r.2.2)
      else if opcode = 3 then
        let p := handle_cls s source (be32f d (i + 1)) (be32f d (i + 5))
        let r := process_ncp_go fuel p.1 source d count (i + 9)
        (r.1, p.2 ++ r.2.1, List.range' i 9 ++ r.2.2)
      else if opcode = 4 then
        let p := handle_all s source (d (i + 1) % 256)
                   ((d (i + 2) % 256) * 256 + d (i + 3) % 256) (be32f d (i + 4))
        let r := process_ncp_go fuel p.1 source d count (i + 8)
        (r.1, p.2 ++ r.2.1, List.range' i 8 ++ r.2.2)
      else if opcode = 12 then
        let r := process_ncp_go fuel s source d count (i + 1)
        (r.1, OutMsg.rrp source :: r.2.1, i :: r.2.2)
      else if opcode = 13 then
        let r := process_ncp_go fuel s source d count (i + 1)
        (r.1, r.2.1, i :: r.2.2)
      else if opcode = 9 then
        let r := process_ncp_go fuel s source d count (i + 1)
        (r.1, r.2.1, i :: r.2.2)
      else if opcode = 11 then
        (s, [], i :: (if i + 1 < count then [i + 1] else []))
      else
        (s, [], [i])
    else (s, [], [])

def process_ncp (s : Sys) (source : Nat) (d : Nat → Nat) (count : Nat) :
    Sys × List OutMsg × List Nat :=
  process_ncp_go count s source d count 0

/-- `handle_imp` (waitsconnect.c:591), applied to an already reassembled
    message: `p` is the packet byte buffer positioned at the 1822 leader
    (`p 0` = type/flags byte, `p 1` = source, `p 2` = link, bytes 6–7 the
    NCP count, payload from byte 9) and `len` the framer word length.
    REGULAR link-0 goes to `process_ncp`, REGULAR data to `handle_data`,
    RFNM is ignored, RESET answers with three NOPs (the C sleeps 1 s
    between them; real time is not modelled), anything else is logged. -/
def handle_imp (s : Sys) (p : Nat → Nat) (len : Nat) : Sys × List OutMsg :=
  if len = 0 then (s, [])
  else
    let type := p 0 % 16
    let source := p 1 % 256
    let link := p 2 % 256
    if type = 0 then
      let count := (p 6 % 256) * 256 + p 7 % 256
      if link = 0 then
        let r := process_ncp s source (fun i => p (9 + i)) count
        (r.1, r.2.1)
      else
        handle_data s source link ((List.range count).map fun i => p (9 + i) % 256)
    else if type = 5 then (s, [])
    else if type = 10 then (s, [.nop, .nop, .nop])
    else (s, [])

/-! ## Event loop and reachability -/

/-- One stimulus of the waitsconnect event loop: a reassembled IMP
    message, console readability (only served while the console is
    connected, as the loop only selects on a valid fd), or one loop
    iteration's tick and periodic-task pass. -/
inductive Event where
  | imp (p : Nat → Nat) (len : Nat)
  | console (input : Option (List Nat))
  | tick

def stepOut (s : Sys) (e : Event) : Sys × List OutMsg :=
  match e with
  | .imp p len => handle_imp s p len
  | .console input =>
    if s.conn.console_connected then handle_console_input s input else (s, [])
  | .tick => periodic_tasks { s with time_tick := s.time_tick + 1 }

def stepSys (s : Sys) (e : Event) : Sys := (stepOut s e).1

/-- States reachable from process start-up under arbitrary event
    sequences (for either console environment). -/
inductive Reachable : Sys → Prop where
  | init (b : Bool) : Reachable (initSys b)
  | step (s : Sys) (e : Event) : Reachable s → Reachable (stepSys s e)

/-! ## Auxiliary definitions for the verification -/

/-- Invariant maintained by every reachable state: the send allocation
    stays in the signed 32-bit range (justifying the plain subtraction in
    the flush loop), and the data-socket allocator is always even and at
    least its initial value 100.  Non-negativity of `send_allocation` is
    NOT an invariant: the uncapped wrap in `handle_all` can drive it
    negative (see the C2 theorems). -/
def SysInv (s : Sys) : Prop :=
  (-2147483648 ≤ s.conn.send_allocation ∧
    s.conn.send_allocation < 2147483648) ∧
  s.next_data_socket % 2 = 0 ∧ 100 ≤ s.next_data_socket

/-- A byte list viewed as a raw buffer (reads past the end yield 0). -/
def pktOf (l : List Nat) : Nat → Nat := fun i => l.getD i 0

/-- A sample reassembled IMP message: REGULAR, source host 99, link 0,
    NCP count 10, carrying RTS(remote=42, local=1, link=7). -/
def sampleRtsPkt : List Nat :=
  [0, 99, 0, 0, 0, 0, 0, 10, 0, 1, 0, 0, 0, 42, 0, 0, 0, 1, 7]

/-- The reachable state after that RTS: ICP phase 1 for listen socket 1. -/
def sIcp1 : Sys := stepSys (initSys true) (.imp (pktOf sampleRtsPkt) 10)

/-- A sample established connection (console connected, tick 5). -/
def sEst : Sys :=
  { conn := { initConn with
      state := .ESTABLISHED, remote_host := 99, listen_socket := 1,
      icp_remote_socket := 42, icp_link := 7, data_socket := 100,
      data_recv_local := 100, data_recv_remote := 45, data_recv_link := 9,
      data_send_local := 101, data_send_remote := 44, data_send_link := 45,
      console_connected := true, send_allocation := 0 },
    time_tick := 5, next_data_socket := 102, console_ok := true }

/-- `sEst` with 150 bytes buffered for the console-to-net direction. -/
def sEstBuf : Sys :=
  { sEst with conn := { sEst.conn with output_buffer := List.replicate 150 65 } }

/-- The remaining ICP handshake messages used to build a concrete
    reachable ESTABLISHED state: ALL(link 7, 4, 256) completing phase 1,
    then STR(remote 43, local 100) and RTS(remote 44, local 101, link 9)
    completing phase 2. -/
def icpAllPkt : List Nat :=
  [0, 99, 0, 0, 0, 0, 0, 8, 0, 4, 7, 0, 4, 0, 0, 1, 0]

def icpStrPkt : List Nat :=
  [0, 99, 0, 0, 0, 0, 0, 10, 0, 2, 0, 0, 0, 43, 0, 0, 0, 100, 8]

def icpRtsPkt : List Nat :=
  [0, 99, 0, 0, 0, 0, 0, 10, 0, 1, 0, 0, 0, 44, 0, 0, 0, 101, 9]

/-- The ICP handshake states written out explicitly, one event at a
    time (each is proved below to be the result of the corresponding
    `stepSys` step, so the final state is reachable): after the initial
    RTS, after the phase-1 ALL, after the client's STR, and the
    resulting ESTABLISHED state (send allocation 0, output buffer empty,
    send link 45). -/
def sIcp1r : Sys :=
  { conn := { initConn with
      state := .ICP_PHASE1, remote_host := 99, listen_socket := 1,
      icp_remote_socket := 42, icp_link := 7 },
    time_tick := 0, next_data_socket := 100, console_ok := true }

def sPh2r : Sys :=
  { conn := { sIcp1r.conn with
      state := .ICP_PHASE2, data_socket := 100, data_recv_local := 100,
      data_send_local := 101, data_send_link := 45 },
    time_tick := 0, next_data_socket := 102, console_ok := true }

def sStrR : Sys :=
  { sPh2r with conn := { sPh2r.conn with
      data_recv_remote := 43, got_str := true } }

def sEst0 : Sys :=
  { sStrR with conn := { sStrR.conn with
      state := .ESTABLISHED, data_send_remote := 44, data_recv_link := 9,
      got_rts := true, console_connected := true,
      console_login_time := 1 } }

/-- An inbound ALL(link 45, messages 65535, bits 0) for the established
    connection's send data link — the maximal allocation grant a single
    control message can carry. -/
def estAllPkt : List Nat :=
  [0, 99, 0, 0, 0, 0, 0, 8, 0, 4, 45, 255, 255, 0, 0, 0, 0]

/-- `n` successive deliveries of `estAllPkt` through the event loop. -/
def allSteps : Nat → Sys → Sys
  | 0, s => s
  | n + 1, s => allSteps n (stepSys s (.imp (pktOf estAllPkt) 9))

/-- The state after 32769 maximal ALL grants: 32769 × 65535 exceeds
    2^31 - 1, so the 32-bit `send_allocation` has wrapped negative. -/
def overflowState : Sys := allSteps 32769 sEst0

/-- A raw 1822 RESET message (type 10) as seen by `handle_imp`. -/
def resetPkt : Nat → Nat := fun i => if i = 0 then 10 else 0

/-- A framer mid-session: 5 datagrams received, 7 sent. -/
def f5 : Framer :=
  { rx_sequence := 5, tx_sequence := 7, imp_ready := 0, imp_flags := 0 }

/-- The framer-state effect of the three `send_nop` calls the RESET
    handler makes (each goes through `imp_send_message`). -/
def sendNops (f : Framer) : Framer :=
  (imp_send_message (imp_send_message (imp_send_message f []).1 []).1 []).1

/-- The host-ready exchange datagram: exactly what `imp_host_ready 1`
    transmits from a fresh framer — a one-word zero-payload datagram with
    FLAG_READY (and FLAG_LAST) set. -/
def readyDgram : List Nat :=
  imp_send_datagram { imp_init with imp_flags := 2 } []

/-- A 64-byte link-0 payload whose first 16-bit word is octal 0303. -/
def trPayload : List Nat := 0 :: 195 :: List.replicate 62 0

/-- A full packet around `trPayload`: 9-byte 1822 leader (leader byte 5
    deliberately set to 0xC3 as well) followed by the 64-byte payload. -/
def trPacket : List Nat := [0, 5, 0, 0, 0, 195, 0, 0, 0] ++ trPayload

/-- A packet carrying a genuine 59-byte 1973 throughput payload
    (bytes 0..58) behind a leader with byte 5 = 0xC3. -/
def thruPacket : List Nat := [0, 5, 0, 0, 0, 195, 0, 0, 0] ++ List.range 59

/-- An NCP control payload that is just the RTS opcode: the declared
    count is 1 but `handle_rts` still dereferences the 9 body bytes. -/
def truncRts : Nat → Nat := fun i => if i = 0 then 1 else 0

/-! ### Opcode-level view of the NCP control parser (for the
    unknown-opcode property) -/

/-- The NCP opcodes the waitsconnect parser processes without stopping
    (ERR = 11 stops the parse by design and is not listed). -/
inductive NcpOp where
  | nop
  | rts (rsock lsock link : Nat)
  | str (rsock lsock size : Nat)
  | cls (rsock lsock : Nat)
  | allOp (link messages bits : Nat)
  | eco
  | rst
  | rrp
deriving DecidableEq

/-- Wire encoding of one opcode, as `process_ncp` expects it. -/
def NcpOp.encode : NcpOp → List Nat
  | .nop => [0]
  | .rts r l k => 1 :: (be32bytes r ++ be32bytes l ++ [k % 256])
  | .str r l sz => 2 :: (be32bytes r ++ be32bytes l ++ [sz % 256])
  | .cls r l => 3 :: (be32bytes r ++ be32bytes l)
  | .allOp k m b => 4 :: (k % 256 :: m / 256 % 256 :: m % 256 :: be32bytes b)
  | .eco => [9]
  | .rst => [12]
  | .rrp => [13]

def encodeOps (ops : List NcpOp) : List Nat := (ops.map NcpOp.encode).flatten

/-- The state transition and output of one opcode, via the very handlers
    `process_ncp` dispatches to. -/
def NcpOp.run (s : Sys) (source : Nat) : NcpOp → Sys × List OutMsg
  | .nop => (s, [])
  | .rts r l k =>
    handle_rts s source (r % 4294967296) (l % 4294967296) (k % 256)
  | .str r l _ => handle_str s source (r % 4294967296) (l % 4294967296)
  | .cls r l => handle_cls s source (r % 4294967296) (l % 4294967296)
  | .allOp k m b =>
    handle_all s source (k % 256) (m % 65536) (b % 4294967296)
  | .eco => (s, [])
  | .rst => (s, [.rrp source])
  | .rrp => (s, [])

/-- Left-to-right execution of a list of opcodes. -/
def runOps (s : Sys) (source : Nat) : List NcpOp → Sys × List OutMsg
  | [] => (s, [])
  | op :: rest =>
    let p := op.run s source
    let q := runOps p.1 source rest
    (q.1, p.2 ++ q.2)

/-- `Layout d i bs`: the raw buffer `d` holds the bytes `bs` starting at
    index `i`. -/
def Layout (d : Nat → Nat) : Nat → List Nat → Prop
  | _, [] => True
  | i, b :: bs => d i % 256 = b ∧ Layout d (i + 1) bs

def layoutDecidable (d : Nat → Nat) : (i : Nat) → (bs : List Nat) →
    Decidable (Layout d i bs)
  | _, [] => .isTrue trivial
  | i, b :: bs =>
    have : Decidable (Layout d (i + 1) bs) := layoutDecidable d (i + 1) bs
    inferInstanceAs (Decidable (_ ∧ _))

instance (d : Nat → Nat) (i : Nat) (bs : List Nat) :
    Decidable (Layout d i bs) := layoutDecidable d i bs

/-- Opcodes known to the waitsconnect `process_ncp` switch (everything
    else hits the default branch and aborts the parse). -/
def isKnownOpcode (u : Nat) : Bool :=
  u = 0 || u = 1 || u = 2 || u = 3 || u = 4 || u = 9 ||
  u = 11 || u = 12 || u = 13

/-- Control payload for the unknown-opcode scenario:
    NOP, RTS(42, 1, link 7), then the unknown byte 0xEE, then a valid STR
    — laid out exactly as the scenario in the specification. -/
def c8ops : List NcpOp := [.nop, .rts 42 1 7]

def c8msg : List Nat :=
  encodeOps c8ops ++ [238] ++ (2 :: (be32bytes 43 ++ be32bytes 100 ++ [8]))

/-! ## Flow-control bookkeeping lemmas -/

/-- Behaviour of the flush loop: every emitted message is a `send_data`
    message and decrements the allocation by exactly one; nothing is sent
    without positive allocation; the allocation never goes negative; and
    at most `⌈buf.length / 100⌉` messages are emitted. -/
theorem flush_go_spec (fuel host link : Nat) :
    ∀ (buf : List Nat) (alloc : Int),
      (flush_go fuel host link buf alloc).2.1 =
        alloc - (flush_go fuel host link buf alloc).2.2.length ∧
      (0 ≤ alloc → 0 ≤ (flush_go fuel host link buf alloc).2.1) ∧
      (alloc ≤ 0 → (flush_go fuel host link buf alloc).2.2 = []) ∧
      (flush_go fuel host link buf alloc).2.2.length ≤ (buf.length + 99) / 100 ∧
      (∀ m ∈ (flush_go fuel host link buf alloc).2.2, m.isData = true) := by
  induction fuel with
  | zero => intro buf alloc; simp [flush_go]
  | succ n ih =>
    intro buf alloc
    by_cases h : 0 < buf.length ∧ 0 < alloc
    · have hrec := ih (buf.drop (min buf.length 100)) (alloc - 1)
      simp only [flush_go, if_pos h]
      obtain ⟨h1, h2, h3, h4, h5⟩ := hrec
      refine ⟨?_, ?_, ?_, ?_, ?_⟩
      · simp only [List.length_cons, h1]; push_cast; ring
      · intro _; exact h2 (by omega)
      · intro hle; omega
      · simp only [List.length_cons]
        have hd : (buf.drop (min buf.length 100)).length = buf.length - min buf.length 100 := by
          simp [List.length_drop]
        rw [hd] at h4
        omega
      · intro m hm
        simp only [List.mem_cons] at hm
        rcases hm with rfl | hm
        · rfl
        · exact h5 m hm
    · simp [flush_go, if_neg h]

theorem flush_spec (host link : Nat) (buf : List Nat) (alloc : Int) :
    (flush_output_buffer host link buf alloc).2.1 =
      alloc - (flush_output_buffer host link buf alloc).2.2.length ∧
    (0 ≤ alloc → 0 ≤ (flush_output_buffer host link buf alloc).2.1) ∧
    (alloc ≤ 0 → (flush_output_buffer host link buf alloc).2.2 = []) ∧
    (flush_output_buffer host link buf alloc).2.2.length ≤ (buf.length + 99) / 100 ∧
    (∀ m ∈ (flush_output_buffer host link buf alloc).2.2, m.isData = true) :=
  flush_go_spec buf.length host link buf alloc

theorem flush_go_nonpos (fuel host link : Nat) (buf : List Nat) (alloc : Int)
    (h : alloc ≤ 0) : flush_go fuel host link buf alloc = (buf, alloc, []) := by
  have hc : ¬(0 < buf.length ∧ 0 < alloc) := by rintro ⟨-, h2⟩; omega
  cases fuel with
  | zero => rfl
  | succ n => simp only [flush_go, if_neg hc]

/-! ## 32-bit wrap lemmas -/

theorem wrap32_range (n : Int) :
    -2147483648 ≤ wrap32 n ∧ wrap32 n < 2147483648 := by
  unfold wrap32; omega

theorem wrap32_wrap32 (x : Int) : wrap32 (wrap32 x) = wrap32 x := by
  unfold wrap32; omega

theorem wrap32_add_left (x y : Int) :
    wrap32 (wrap32 x + y) = wrap32 (x + y) := by
  unfold wrap32; omega

/-- The flush loop keeps the allocation inside the signed 32-bit range:
    either it never runs (non-positive allocation, value unchanged) or it
    counts down a positive value towards zero. -/
theorem flush_range (host link : Nat) (buf : List Nat) (alloc : Int)
    (h1 : -2147483648 ≤ alloc) (h2 : alloc < 2147483648) :
    -2147483648 ≤ (flush_output_buffer host link buf alloc).2.1 ∧
    (flush_output_buffer host link buf alloc).2.1 < 2147483648 := by
  rcases le_or_lt alloc 0 with hle | hpos
  · rw [flush_output_buffer, flush_go_nonpos _ _ _ _ _ hle]
    exact ⟨h1, h2⟩
  · obtain ⟨e1, e2, -, -, -⟩ := flush_spec host link buf alloc
    have e3 := e2 (le_of_lt hpos)
    constructor <;> omega

theorem establish_inv (s : Sys) (c : Conn)
    (h : (-2147483648 ≤ c.send_allocation ∧ c.send_allocation < 2147483648) ∧
         s.next_data_socket % 2 = 0 ∧ 100 ≤ s.next_data_socket) :
    SysInv (establish s c).1 := by
  unfold SysInv
  simp only [establish]
  split_ifs <;> simp_all

theorem handle_rts_inv (s : Sys) (a b c d : Nat) (h : SysInv s) :
    SysInv (handle_rts s a b c d).1 := by
  obtain ⟨ha, hb, hc⟩ := h
  unfold SysInv
  simp only [handle_rts, establish]
  split_ifs <;> simp_all

theorem handle_str_inv (s : Sys) (a b c : Nat) (h : SysInv s) :
    SysInv (handle_str s a b c).1 := by
  obtain ⟨ha, hb, hc⟩ := h
  unfold SysInv
  simp only [handle_str, establish]
  split_ifs <;> simp_all

theorem handle_cls_inv (s : Sys) (a b c : Nat) (h : SysInv s) :
    SysInv (handle_cls s a b c).1 := by
  obtain ⟨ha, hb, hc⟩ := h
  unfold SysInv
  simp only [handle_cls]
  split_ifs <;> simp_all

theorem handle_all_inv (s : Sys) (a b c d : Nat) (h : SysInv s) :
    SysInv (handle_all s a b c d).1 := by
  obtain ⟨ha, hb, hc⟩ := h
  unfold SysInv
  simp only [handle_all]
  split_ifs with h1 h2 h3 h4
  · exact ⟨ha, hb, hc⟩
  · refine ⟨by simpa using ha, by simp; omega, by simp; omega⟩
  · exact ⟨ha, hb, hc⟩
  · have hr := wrap32_range (s.conn.send_allocation + c)
    have hf := flush_range s.conn.remote_host s.conn.data_send_link
      s.conn.output_buffer (wrap32 (s.conn.send_allocation + c)) hr.1 hr.2
    exact ⟨by simpa using hf, by simpa using hb, by simpa using hc⟩
  · exact ⟨ha, hb, hc⟩

theorem handle_data_inv (s : Sys) (a b : Nat) (data : List Nat) (h : SysInv s) :
    SysInv (handle_data s a b data).1 := by
  obtain ⟨ha, hb, hc⟩ := h
  unfold SysInv
  simp only [handle_data]
  split_ifs <;> simp_all

theorem handle_console_input_inv (s : Sys) (input : Option (List Nat))
    (h : SysInv s) : SysInv (handle_console_input s input).1 := by
  obtain ⟨ha, hb, hc⟩ := h
  unfold SysInv
  simp only [handle_console_input]
  split_ifs with h1 h2
  · exact ⟨ha, hb, hc⟩
  · exact ⟨ha, hb, hc⟩
  · cases input with
    | none => exact ⟨by simpa using ha, by simpa using hb, by simpa using hc⟩
    | some bytes =>
      simp only
      split_ifs with hfit
      · have hf := flush_range s.conn.remote_host s.conn.data_send_link
          (s.conn.output_buffer ++ bytes) s.conn.send_allocation ha.1 ha.2
        exact ⟨by simpa using hf, by simpa using hb, by simpa using hc⟩
      · have hf := flush_range s.conn.remote_host s.conn.data_send_link
          s.conn.output_buffer s.conn.send_allocation ha.1 ha.2
        exact ⟨by simpa using hf, by simpa using hb, by simpa using hc⟩

theorem periodic_tasks_inv (s : Sys) (h : SysInv s) :
    SysInv (periodic_tasks s).1 := by
  obtain ⟨ha, hb, hc⟩ := h
  unfold SysInv
  simp only [periodic_tasks]
  split_ifs <;> simp_all

theorem process_ncp_go_inv (fuel : Nat) :
    ∀ (s : Sys) (source : Nat) (d : Nat → Nat) (count i : Nat), SysInv s →
      SysInv (process_ncp_go fuel s source d count i).1 := by
  induction fuel with
  | zero => intro s source d count i h; simpa [process_ncp_go] using h
  | succ n ih =>
    intro s source d count i h
    simp only [process_ncp_go]
    by_cases hic : i < count
    case neg => rw [if_neg hic]; exact h
    rw [if_pos hic]
    by_cases h0 : d i % 256 = 0
    · rw [if_pos h0]; exact ih _ _ _ _ _ h
    rw [if_neg h0]
    by_cases h1 : d i % 256 = 1
    · rw [if_pos h1]; exact ih _ _ _ _ _ (handle_rts_inv _ _ _ _ _ h)
    rw [if_neg h1]
    by_cases h2 : d i % 256 = 2
    · rw [if_pos h2]; exact ih _ _ _ _ _ (handle_str_inv _ _ _ _ h)
    rw [if_neg h2]
    by_cases h3 : d i % 256 = 3
    · rw [if_pos h3]; exact ih _ _ _ _ _ (handle_cls_inv _ _ _ _ h)
    rw [if_neg h3]
    by_cases h4 : d i % 256 = 4
    · rw [if_pos h4]; exact ih _ _ _ _ _ (handle_all_inv _ _ _ _ _ h)
    rw [if_neg h4]
    by_cases h12 : d i % 256 = 12
    · rw [if_pos h12]; exact ih _ _ _ _ _ h
    rw [if_neg h12]
    by_cases h13 : d i % 256 = 13
    · rw [if_pos h13]; exact ih _ _ _ _ _ h
    rw [if_neg h13]
    by_cases h9 : d i % 256 = 9
    · rw [if_pos h9]; exact ih _ _ _ _ _ h
    rw [if_neg h9]
    by_cases h11 : d i % 256 = 11
    · rw [if_pos h11]; exact h
    rw [if_neg h11]
    exact h

theorem handle_imp_inv (s : Sys) (p : Nat → Nat) (len : Nat) (h : SysInv s) :
    SysInv (handle_imp s p len).1 := by
  simp only [handle_imp, process_ncp]
  split_ifs <;>
    first
      | exact h
      | exact process_ncp_go_inv _ _ _ _ _ _ h
      | exact handle_data_inv _ _ _ _ h

theorem stepSys_inv (s : Sys) (e : Event) (h : SysInv s) :
    SysInv (stepSys s e) := by
  cases e with
  | imp p len => exact handle_imp_inv _ _ _ h
  | console input =>
    simp only [stepSys, stepOut]
    split_ifs with h1
    · exact handle_console_input_inv _ _ h
    · exact h
  | tick =>
    simp only [stepSys, stepOut]
    apply periodic_tasks_inv
    exact ⟨h.1, h.2.1, h.2.2⟩

theorem reachable_inv (s : Sys) (h : Reachable s) : SysInv s := by
  induction h with
  | init b =>
    refine ⟨⟨by norm_num [initSys, initConn], by norm_num [initSys, initConn]⟩,
      by norm_num [initSys], by norm_num [initSys]⟩
  | step s e hs ih => exact stepSys_inv s e ih

/-! ## Further helper lemmas -/

theorem goodMagic_length_ne (msg : List Nat) (h : goodMagic msg) :
    ¬ msg.length = 0 := by
  intro hl
  rw [List.length_eq_zero] at hl
  subst hl
  simpa [goodMagic, List.getD] using h

/-! ## Claim theorems -/

/-- Claim C10: an inbound CLS received in state ICP_PHASE1 silently
    returns the connection to LISTENING; no CLS reply nor any other
    outbound ARPANET message is produced (`handle_cls` only replies with
    CLS pairs from ESTABLISHED or ICP_PHASE2). -/
theorem C10_cls_in_phase1 (s : Sys) (source remote_sock local_sock : Nat)
    (hst : s.conn.state = .ICP_PHASE1) :
    (handle_cls s source remote_sock local_sock).2 = [] ∧
    (handle_cls s source remote_sock local_sock).1.conn.state = .LISTENING := by
  constructor <;> simp [handle_cls, hst]

theorem C10_witness :
    (handle_cls sIcp1 99 42 1).2 = [] ∧
    (handle_cls sIcp1 99 42 1).1.conn.state = .LISTENING :=
  C10_cls_in_phase1 sIcp1 99 42 1 (by decide)

/-- Claim C4 (code bug): `readyDgram` is precisely the well-formed
    one-word zero-payload host-ready exchange datagram that
    `imp_host_ready` transmits, and its flags word has the HOST-READY bit
    set while the receiver's tracked bit is 0 — yet `imp_receive_message`
    returns before parsing the flags (`*length == 0` early return), so the
    tracked value is not updated and the peer-ready callback is not
    invoked (`deliver [] false false`). -/
theorem C4_ready_bit_skipped_on_empty_payload :
    readyDgram = [72, 51, 49, 54, 0, 0, 0, 0, 0, 1, 0, 3] ∧
    (readyDgram.getD 10 0 * 256 + readyDgram.getD 11 0) &&& 2 = 2 ∧
    imp_init.imp_ready = 0 ∧
    imp_receive_message imp_init readyDgram =
      ({ imp_init with rx_sequence := 1 }, .deliver [] false false) := by
  refine ⟨by decide, by decide, by decide, by decide⟩

/-- Claim C9 (code bug): an NCP control message with declared byte count 1
    whose single byte is the RTS opcode makes `process_ncp` call
    `handle_rts`, which dereferences the 9 body bytes: payload indices
    1 through 9 are read although the declared count is 1. -/
theorem C9_truncated_rts_reads_past_count :
    (process_ncp (initSys true) 5 truncRts 1).2.2 =
      [0, 1, 2, 3, 4, 5, 6, 7, 8, 9] ∧
    9 ∈ (process_ncp (initSys true) 5 truncRts 1).2.2 ∧ ¬ (9 < 1) := by
  refine ⟨by decide, by decide, by decide⟩

/-- Claim C3 counterexample: an 1822 RESET processed in an ESTABLISHED
    state emits the three NOPs but leaves the whole system state — in
    particular the connection state — unchanged, and the three NOP sends
    leave the framer's `rx_sequence` at its old value 5 rather than
    resetting the sequence numbers to 0. -/
theorem C3_counterexample :
    (handle_imp sEst resetPkt 2).2 = [.nop, .nop, .nop] ∧
    (handle_imp sEst resetPkt 2).1 = sEst ∧
    sEst.conn.state = .ESTABLISHED ∧
    ¬ (handle_imp sEst resetPkt 2).1.conn.state = .LISTENING ∧
    (sendNops f5).rx_sequence = 5 ∧
    ¬ ((sendNops f5).rx_sequence = 0 ∧ (sendNops f5).tx_sequence = 0) := by
  refine ⟨by decide, by decide, by decide, by decide, by decide, by decide⟩

/-- Claim C3 amended: on an 1822 RESET the host emits exactly three NOP
    messages (the C sleeps ≈1 s between the sends; real time is not
    modelled) and nothing else: the NCP connection state is untouched,
    and the framer sequence numbers are not reset — each NOP send
    advances `tx_sequence` by one and `rx_sequence` is unchanged; the
    sequence numbers are zeroed only by `imp_init`. -/
theorem C3_reset_three_nops (s : Sys) (p : Nat → Nat) (len : Nat) (f : Framer)
    (hlen : len ≠ 0) (ht : p 0 % 16 = 10) :
    handle_imp s p len = (s, [.nop, .nop, .nop]) ∧
    (sendNops f).tx_sequence = f.tx_sequence + 3 ∧
    (sendNops f).rx_sequence = f.rx_sequence ∧
    imp_init.rx_sequence = 0 ∧ imp_init.tx_sequence = 0 := by
  refine ⟨?_, ?_, ?_, rfl, rfl⟩
  · simp [handle_imp, hlen, ht]
  · simp [sendNops, imp_send_message]
  · simp [sendNops, imp_send_message]

theorem C3_witness :
    handle_imp sEst resetPkt 2 = (sEst, [.nop, .nop, .nop]) ∧
    (sendNops f5).tx_sequence = 10 ∧ (sendNops f5).rx_sequence = 5 := by
  have h := C3_reset_three_nops sEst resetPkt 2 f5 (by decide) (by decide)
  exact ⟨h.1, by rw [h.2.1]; decide, by rw [h.2.2.1]; decide⟩

/-- Claim C5 counterexample: a 64-byte link-0 payload whose first 16-bit
    word is octal 0303 is rejected by both 1973 decoders (which insist on
    exactly 59/101 bytes and are driven by leader byte 5, not by the first
    payload word), and the `process_regular` 1973 dispatch yields no
    record for a packet carrying it; the code base contains no Trouble
    Report record and no `halt_pc` field at all. -/
theorem C5_counterexample :
    trPayload.length = 64 ∧ get_word trPayload 0 = 195 ∧
    decode_1973_throughput trPayload 64 5 = none ∧
    decode_1973_status trPayload 64 5 = none ∧
    process_regular_1973 trPacket 37 = none := by
  refine ⟨by decide, by decide, by decide, by decide, by decide⟩

/-- Claim C5 amended: a REGULAR link-0 message whose 1822 leader byte 5 is
    0xC3 (octal 0303) and whose payload is exactly 59 bytes decodes as a
    1973 Throughput record (the only "1973 report" record the code has);
    its `counter` is the payload byte at offset 8 and its `field1` is the
    16-bit big-endian word at byte offset 10 of the payload. -/
theorem C5_thru1973_decode (packet : List Nat) (length : Nat)
    (hld : packet.getD 5 0 = 195) (hsz : 2 * length - 9 = 59) :
    ∃ rec : Throughput1973,
      process_regular_1973 packet length = some (Sum.inl rec) ∧
      rec.message_type = 303 ∧
      rec.counter = (packet.drop 9).getD 8 0 ∧
      rec.field1 = (packet.drop 9).getD 10 0 * 256 +
        (packet.drop 9).getD 11 0 := by
  refine ⟨{ imp_number := packet.getD 1 0 % 64
            message_type := 303
            counter := (packet.drop 9).getD 8 0
            field1 := get_word (packet.drop 9) 5
            pattern_0628 := get_word (packet.drop 9) 8
            pattern_ffff := get_word (packet.drop 9) 11
            variable_field := get_word (packet.drop 9) 14
            raw_data := (packet.drop 9).take 59 }, ?_, rfl, rfl, ?_⟩
  · have hld2 : packet[5]?.getD 0 = 195 := by
      rw [← List.getD_eq_getElem?_getD]; exact hld
    simp [process_regular_1973, decode_1973_throughput, hld2, hsz]
  · simp [get_word]

theorem C5_witness :
    ∃ rec : Throughput1973,
      process_regular_1973 thruPacket 34 = some (Sum.inl rec) ∧
      rec.field1 = 2571 := by
  obtain ⟨rec, h1, h2, h3, h4⟩ := C5_thru1973_decode thruPacket 34
    (by decide) (by decide)
  exact ⟨rec, h1, by rw [h4]; decide⟩

/-- Claim C6: framer receive sequencing.  (1) A datagram with sequence
    number 0 arriving while `rx_sequence` is non-zero is a peer restart:
    it is accepted (neither dropped nor rejected) and `rx_sequence` is
    resynchronised to 1 = 0 + 1.  (2) A datagram with non-zero sequence
    number strictly below `rx_sequence` is rejected with length 0 returned
    and no state change.  (3) Every accepted datagram leaves `rx_sequence`
    equal to its sequence number plus one, so the accepted inbound
    sequence is monotonic. -/
theorem C6_framer_sequence :
    (∀ (f : Framer) (msg : List Nat), goodMagic msg → dgramSeq msg = 0 →
      f.rx_sequence ≠ 0 →
      (imp_receive_message f msg).1.rx_sequence = 1 ∧
      (imp_receive_message f msg).2 ≠ .drop ∧
      (imp_receive_message f msg).2 ≠ .reject) ∧
    (∀ (f : Framer) (msg : List Nat), goodMagic msg → dgramSeq msg ≠ 0 →
      dgramSeq msg < f.rx_sequence →
      imp_receive_message f msg = (f, .reject)) ∧
    (∀ (f : Framer) (msg : List Nat), goodMagic msg →
      (imp_receive_message f msg).2 ≠ .drop →
      (imp_receive_message f msg).2 ≠ .reject →
      (imp_receive_message f msg).1.rx_sequence = dgramSeq msg + 1) := by
  refine ⟨?_, ?_, ?_⟩
  · intro f msg hm h0 hrx
    have hlen := goodMagic_length_ne msg hm
    obtain ⟨m0, m1, m2, m3⟩ := hm
    unfold dgramSeq at h0
    unfold imp_receive_message
    rw [if_neg hlen, if_pos ⟨m0, m1, m2, m3⟩]
    simp only []
    rw [if_pos ⟨h0, hrx⟩]
    unfold imp_receive_message.imp_receive_body
    simp only []
    split_ifs <;> exact ⟨rfl, by simp, by simp⟩
  · intro f msg hm h0 hlt
    have hlen := goodMagic_length_ne msg hm
    obtain ⟨m0, m1, m2, m3⟩ := hm
    unfold dgramSeq at h0 hlt
    unfold imp_receive_message
    rw [if_neg hlen, if_pos ⟨m0, m1, m2, m3⟩]
    simp only []
    rw [if_neg (by rintro ⟨hz, -⟩; exact h0 hz), if_pos hlt]
  · intro f msg hm hd hr
    have hlen := goodMagic_length_ne msg hm
    obtain ⟨m0, m1, m2, m3⟩ := hm
    by_cases h0 : dgramSeq msg = 0 ∧ f.rx_sequence ≠ 0
    · rw [h0.1]
      have h0a := h0.1
      have h0b := h0.2
      unfold dgramSeq at h0a
      unfold imp_receive_message
      rw [if_neg hlen, if_pos ⟨m0, m1, m2, m3⟩]
      simp only []
      rw [if_pos ⟨h0a, h0b⟩]
      unfold imp_receive_message.imp_receive_body
      simp only []
      split_ifs <;> rfl
    · by_cases hlt : dgramSeq msg < f.rx_sequence
      · exfalso
        apply hr
        have hne : dgramSeq msg ≠ 0 := by
          intro hz
          exact h0 ⟨hz, by omega⟩
        unfold dgramSeq at hne hlt
        unfold imp_receive_message
        rw [if_neg hlen, if_pos ⟨m0, m1, m2, m3⟩]
        simp only []
        rw [if_neg (by rintro ⟨hz, -⟩; exact hne hz), if_pos hlt]
      · have h0c : ¬ (dgramSeq msg = 0 ∧ f.rx_sequence ≠ 0) := h0
        unfold dgramSeq at h0c hlt ⊢
        unfold imp_receive_message
        rw [if_neg hlen, if_pos ⟨m0, m1, m2, m3⟩]
        simp only []
        rw [if_neg h0c, if_neg hlt]
        unfold imp_receive_message.imp_receive_body
        simp only []
        split_ifs <;> rfl

theorem C6_witness :
    (imp_receive_message f5
        [72, 51, 49, 54, 0, 0, 0, 0, 0, 2, 0, 3, 7, 8]).1.rx_sequence = 1 ∧
    imp_receive_message f5 [72, 51, 49, 54, 0, 0, 0, 3, 0, 2, 0, 3, 7, 8] =
      (f5, .reject) ∧
    (imp_receive_message f5
        [72, 51, 49, 54, 0, 0, 0, 9, 0, 2, 0, 3, 7, 8]).1.rx_sequence = 10 := by
  refine ⟨?_, ?_, ?_⟩
  · exact (C6_framer_sequence.1 f5 _ (by decide) (by decide) (by decide)).1
  · exact C6_framer_sequence.2.1 f5 _ (by decide) (by decide) (by decide)
  · have h := C6_framer_sequence.2.2 f5
      [72, 51, 49, 54, 0, 0, 0, 9, 0, 2, 0, 3, 7, 8] (by decide)
      (by decide) (by decide)
    rw [h]; decide

/-- Claim C1: in ICP_PHASE1, an inbound ALL on the recorded ICP link
    allocates the next base socket from the even, ≥ 100 allocator
    (initially 100, advanced by 2 per connection) and emits, in order:
    the one-word socket-number data message on the ICP link, CLS on the
    listen socket, STR(base+1, icp_remote+2, 8), and
    RTS(base, icp_remote+3, link 45 = data_send_link); the connection ends
    in ICP_PHASE2 with got_str and got_rts cleared. -/
theorem C1_icp_phase1_all (s : Sys) (source link messages bits : Nat)
    (hr : Reachable s) (hst : s.conn.state = .ICP_PHASE1)
    (hl : link = s.conn.icp_link) :
    s.next_data_socket % 2 = 0 ∧ 100 ≤ s.next_data_socket ∧
    (handle_all s source link messages bits).2 =
      [.socketNumber source s.conn.icp_link s.next_data_socket,
       .cls source s.conn.listen_socket s.conn.icp_remote_socket,
       .str source (s.next_data_socket + 1) (s.conn.icp_remote_socket + 2) 8,
       .rts source s.next_data_socket (s.conn.icp_remote_socket + 3) 45] ∧
    (handle_all s source link messages bits).1.conn.state = .ICP_PHASE2 ∧
    (handle_all s source link messages bits).1.conn.got_str = false ∧
    (handle_all s source link messages bits).1.conn.got_rts = false ∧
    (handle_all s source link messages bits).1.conn.data_socket =
      s.next_data_socket ∧
    (handle_all s source link messages bits).1.conn.data_send_link = 45 ∧
    (handle_all s source link messages bits).1.next_data_socket =
      s.next_data_socket + 2 := by
  obtain ⟨-, hb, hc⟩ := reachable_inv s hr
  refine ⟨hb, hc, ?_, ?_, ?_, ?_, ?_, ?_, ?_⟩ <;> simp [handle_all, hst, hl]

theorem C1_witness :
    (handle_all sIcp1 99 7 4 256).2 =
      [.socketNumber 99 7 100, .cls 99 1 42, .str 99 101 44 8,
       .rts 99 100 45 45] ∧
    (handle_all sIcp1 99 7 4 256).1.conn.state = .ICP_PHASE2 ∧
    (handle_all sIcp1 99 7 4 256).1.conn.got_str = false ∧
    (handle_all sIcp1 99 7 4 256).1.conn.got_rts = false ∧
    (handle_all sIcp1 99 7 4 256).1.next_data_socket = 102 := by
  have h := C1_icp_phase1_all sIcp1 99 7 4 256
    (Reachable.step _ _ (Reachable.init true)) (by decide) (by decide)
  obtain ⟨-, -, hout, hstt, hgs, hgr, -, -, hnext⟩ := h
  refine ⟨by rw [hout]; decide, hstt, hgs, hgr, by rw [hnext]; decide⟩

/-- Claim C7: teardown behaviour.  (1) An inbound CLS in ESTABLISHED with
    the console connected emits exactly two CLS messages — the send data
    socket pair then the receive data socket pair — arms the 3-tick close
    timer, returns the state to LISTENING and keeps the console open.
    (2) While the close timer is armed, console input (data or EOF) is
    discarded: no state change and no ARPANET traffic.  (3) The periodic
    task closes the console exactly when the armed timer has expired, and
    leaves it untouched otherwise.  (4) A CLS naming the listen socket in
    ICP_PHASE2 causes no action at all. -/
theorem C7_teardown :
    (∀ (s : Sys) (source remote_sock local_sock : Nat),
      s.conn.state = .ESTABLISHED → s.conn.console_connected = true →
      (handle_cls s source remote_sock local_sock).2 =
        [.cls source s.conn.data_send_local s.conn.data_send_remote,
         .cls source s.conn.data_recv_local s.conn.data_recv_remote] ∧
      (handle_cls s source remote_sock local_sock).1.conn.state =
        .LISTENING ∧
      (handle_cls s source remote_sock local_sock).1.conn.console_close_time =
        s.time_tick + 3 ∧
      (handle_cls s source remote_sock local_sock).1.conn.console_connected =
        true) ∧
    (∀ (s : Sys) (input : Option (List Nat)), 0 < s.conn.console_close_time →
      handle_console_input s input = (s, [])) ∧
    (∀ s : Sys, 0 < s.conn.console_close_time →
      s.conn.console_close_time ≤ s.time_tick →
      (periodic_tasks s).1.conn.console_connected = false) ∧
    (∀ s : Sys, (0 < s.conn.console_close_time →
        s.time_tick < s.conn.console_close_time) →
      (periodic_tasks s).1.conn.console_connected =
        s.conn.console_connected) ∧
    (∀ (s : Sys) (source remote_sock local_sock : Nat),
      s.conn.state = .ICP_PHASE2 → local_sock = s.conn.listen_socket →
      handle_cls s source remote_sock local_sock = (s, [])) := by
  refine ⟨?_, ?_, ?_, ?_, ?_⟩
  · intro s source remote_sock local_sock hst hcc
    refine ⟨?_, ?_, ?_, ?_⟩ <;> simp [handle_cls, hst, hcc]
  · intro s input h
    simp [handle_console_input, h]
  · intro s h1 h2
    simp only [periodic_tasks]
    split_ifs <;> simp_all
  · intro s h1
    simp only [periodic_tasks]
    split_ifs <;> simp_all <;> omega
  · intro s source remote_sock local_sock hst hls
    simp [handle_cls, hst, hls]

theorem C7_witness :
    (handle_cls sEst 99 44 101).2 = [.cls 99 101 44, .cls 99 100 45] ∧
    (handle_cls sEst 99 44 101).1.conn.state = .LISTENING ∧
    (handle_cls sEst 99 44 101).1.conn.console_close_time = 8 ∧
    (handle_cls sEst 99 44 101).1.conn.console_connected = true ∧
    handle_console_input (handle_cls sEst 99 44 101).1 (some [65, 66]) =
      ((handle_cls sEst 99 44 101).1, []) ∧
    (periodic_tasks { (handle_cls sEst 99 44 101).1 with time_tick := 8
       }).1.conn.console_connected = false ∧
    (periodic_tasks (handle_cls sEst 99 44 101).1).1.conn.console_connected =
      true ∧
    handle_cls { sEst with conn := { sEst.conn with
        state := ConnState.ICP_PHASE2 } } 99 42 1 =
      ({ sEst with conn := { sEst.conn with
          state := ConnState.ICP_PHASE2 } }, []) := by
  have h1 := C7_teardown.1 sEst 99 44 101 (by decide) (by decide)
  have h2 := C7_teardown.2.1 (handle_cls sEst 99 44 101).1 (some [65, 66])
    (by rw [h1.2.2.1]; decide)
  have h3 := C7_teardown.2.2.1
    { (handle_cls sEst 99 44 101).1 with time_tick := 8 }
    (by show 0 < (handle_cls sEst 99 44 101).1.conn.console_close_time
        rw [h1.2.2.1]; decide)
    (by show (handle_cls sEst 99 44 101).1.conn.console_close_time ≤ 8
        rw [h1.2.2.1]; decide)
  have h4 := C7_teardown.2.2.2.1 (handle_cls sEst 99 44 101).1
    (by intro h
        show (handle_cls sEst 99 44 101).1.time_tick <
          (handle_cls sEst 99 44 101).1.conn.console_close_time
        rw [h1.2.2.1]
        decide)
  have h5 := C7_teardown.2.2.2.2
    { sEst with conn := { sEst.conn with state := ConnState.ICP_PHASE2 } }
    99 42 1 (by decide) (by decide)
  refine ⟨by rw [h1.1]; decide, h1.2.1, h1.2.2.1, h1.2.2.2, h2, h3, ?_, h5⟩
  rw [h4, h1.2.2.2]

theorem sIcp1r_eq : sIcp1 = sIcp1r := by decide

theorem sPh2r_eq : stepSys sIcp1r (.imp (pktOf icpAllPkt) 9) = sPh2r := by
  decide

theorem sStrR_eq : stepSys sPh2r (.imp (pktOf icpStrPkt) 10) = sStrR := by
  decide

theorem sEst0_eq : stepSys sStrR (.imp (pktOf icpRtsPkt) 10) = sEst0 := by
  decide

theorem sEst0_reachable : Reachable sEst0 := by
  have h1 : Reachable sIcp1r := by
    rw [← sIcp1r_eq]
    exact Reachable.step _ _ (Reachable.init true)
  have h2 : Reachable sPh2r := by
    rw [← sPh2r_eq]; exact Reachable.step _ _ h1
  have h3 : Reachable sStrR := by
    rw [← sStrR_eq]; exact Reachable.step _ _ h2
  rw [← sEst0_eq]; exact Reachable.step _ _ h3

/-- One delivery of `estAllPkt` through the event loop, for any system
    state: the concrete packet drives `handle_imp` through the REGULAR
    link-0 path into `process_ncp`, which dispatches exactly one
    ALL(link 45, 65535, 0) — so the step is `handle_all s 99 45 65535 0`.
    In an ESTABLISHED state with send link 45 and an empty output buffer
    the flush loop does nothing and the sole effect is the wrapped
    addition of 65535 to `send_allocation`. -/
theorem est_all_step (s : Sys) (h1 : s.conn.state = .ESTABLISHED)
    (h2 : s.conn.data_send_link = 45) (h3 : s.conn.output_buffer = []) :
    stepSys s (.imp (pktOf estAllPkt) 9) =
      { s with conn := { s.conn with
          send_allocation := wrap32 (s.conn.send_allocation + 65535) } } := by
  have h : stepSys s (.imp (pktOf estAllPkt) 9) =
      (handle_all s 99 45 65535 0).1 := rfl
  rw [h]
  simp only [handle_all]
  rw [if_neg (show ¬ s.conn.state = .ICP_PHASE1 by rw [h1]; simp),
    if_pos h1, if_neg (show ¬ (45 ≠ s.conn.data_send_link) by rw [h2]; simp),
    h3]
  simp only [flush_output_buffer, List.length_nil, flush_go]
  rw [← h3]
  norm_num

/-- Iterating maximal ALL grants from a reachable ESTABLISHED state with
    empty buffer: every intermediate state stays reachable with the same
    connection shape, and the allocation is the 32-bit wrap of the
    accumulated grants. -/
theorem allSteps_spec :
    ∀ (n : Nat) (s : Sys), Reachable s → s.conn.state = .ESTABLISHED →
      s.conn.data_send_link = 45 → s.conn.output_buffer = [] →
      s.conn.send_allocation = wrap32 s.conn.send_allocation →
      Reachable (allSteps n s) ∧
      (allSteps n s).conn.send_allocation =
        wrap32 (s.conn.send_allocation + 65535 * n) := by
  intro n
  induction n with
  | zero =>
    intro s hr h1 h2 h3 hw
    refine ⟨hr, ?_⟩
    simpa using hw
  | succ m ih =>
    intro s hr h1 h2 h3 hw
    have hstep := est_all_step s h1 h2 h3
    have hr2 : Reachable (stepSys s (.imp (pktOf estAllPkt) 9)) :=
      Reachable.step s _ hr
    rw [hstep] at hr2
    have hrec := ih { s with conn := { s.conn with
        send_allocation := wrap32 (s.conn.send_allocation + 65535) } }
      hr2 h1 h2 h3 (by simpa using (wrap32_wrap32 _).symm)
    have heq : allSteps (m + 1) s =
        allSteps m { s with conn := { s.conn with
          send_allocation := wrap32 (s.conn.send_allocation + 65535) } } := by
      simp only [allSteps, hstep]
    rw [heq]
    refine ⟨hrec.1, ?_⟩
    rw [hrec.2]
    simp only [wrap32_add_left]
    congr 1
    push_cast
    ring

/-- Claim C2 (code bug): the flow-control sign invariant fails on the
    real arithmetic.  `send_allocation` is a 32-bit C `int`; each inbound
    ALL in ESTABLISHED adds its attacker-controlled 16-bit `messages`
    field with no cap, so 32769 maximal grants (32769 × 65535 =
    2147516415 > 2^31 − 1) wrap it negative.  `overflowState` — the ICP
    handshake followed by 32769 ALL(link 45, 65535, 0) deliveries, every
    step through the event loop — is reachable, and its
    `send_allocation` is −2147450881 < 0, contradicting the claimed
    invariant `send_allocation ≥ 0` for every reachable state (and
    silencing the connection, since transmission requires a positive
    allocation). -/
theorem C2_allocation_wraps_negative :
    Reachable overflowState ∧
    overflowState.conn.send_allocation = -2147450881 ∧
    overflowState.conn.send_allocation < 0 := by
  have h := allSteps_spec 32769 sEst0 sEst0_reachable (by decide) (by decide)
    (by decide) (by decide)
  have hov : overflowState = allSteps 32769 sEst0 := rfl
  have halloc : overflowState.conn.send_allocation = -2147450881 := by
    rw [hov, h.2]
    decide
  refine ⟨?_, halloc, by rw [halloc]; decide⟩
  rw [hov]
  exact h.1

/-! ## Unknown-opcode machinery (claim C8) -/

theorem encodeOps_cons (op : NcpOp) (rest : List NcpOp) :
    encodeOps (op :: rest) = op.encode ++ encodeOps rest := by
  simp [encodeOps]

theorem layout_append (d : Nat → Nat) (xs : List Nat) :
    ∀ (ys : List Nat) (i : Nat),
      Layout d i (xs ++ ys) ↔ Layout d i xs ∧ Layout d (i + xs.length) ys := by
  induction xs with
  | nil => intro ys i; simp [Layout]
  | cons b bs ih =>
    intro ys i
    constructor
    · rintro ⟨h1, h2⟩
      obtain ⟨h2a, h2b⟩ := (ih ys (i + 1)).mp h2
      refine ⟨⟨h1, h2a⟩, ?_⟩
      rw [show i + (b :: bs).length = i + 1 + bs.length by
        simp only [List.length_cons]; omega]
      exact h2b
    · rintro ⟨⟨h1, h2⟩, h3⟩
      refine ⟨h1, (ih ys (i + 1)).mpr ⟨h2, ?_⟩⟩
      rw [show i + 1 + bs.length = i + (b :: bs).length by
        simp only [List.length_cons]; omega]
      exact h3

theorem layout_bytes (d : Nat → Nat) (bs : List Nat) :
    ∀ i, Layout d i bs → ∀ j, j < bs.length → d (i + j) % 256 = bs.getD j 0 := by
  induction bs with
  | nil => intro i h j hj; simp at hj
  | cons b rest ih =>
    intro i h j hj
    obtain ⟨h1, h2⟩ := h
    cases j with
    | zero => simpa using h1
    | succ j =>
      have := ih (i + 1) h2 j (by simpa using hj)
      rw [show i + (j + 1) = i + 1 + j by omega]
      simpa using this

theorem be32f_layout (d : Nat → Nat) (j r : Nat)
    (h0 : d j % 256 = r / 16777216 % 256)
    (h1 : d (j + 1) % 256 = r / 65536 % 256)
    (h2 : d (j + 2) % 256 = r / 256 % 256)
    (h3 : d (j + 3) % 256 = r % 256) :
    be32f d j = r % 4294967296 := by
  unfold be32f
  rw [h0, h1, h2, h3]
  omega

/-- The `process_ncp` loop run on a buffer laid out as a sequence of
    well-formed opcodes followed by a byte that is not a known opcode:
    the result is exactly the left-to-right execution of the opcode
    sequence — every preceding side effect is applied, and nothing at or
    after the unknown byte is processed, whatever bytes follow it and
    whatever the declared count beyond it. -/
theorem process_ncp_go_runs :
    ∀ (ops : List NcpOp) (fuel : Nat) (s : Sys) (source : Nat)
      (d : Nat → Nat) (count i : Nat),
      Layout d i (encodeOps ops) →
      isKnownOpcode (d (i + (encodeOps ops).length) % 256) = false →
      i + (encodeOps ops).length < count →
      ops.length < fuel →
      (process_ncp_go fuel s source d count i).1 = (runOps s source ops).1 ∧
      (process_ncp_go fuel s source d count i).2.1 =
        (runOps s source ops).2 := by
  intro ops
  induction ops with
  | nil =>
    intro fuel s source d count i hlay hunk hcount hfu
    cases fuel with
    | zero => omega
    | succ m =>
      have h0 : (encodeOps ([] : List NcpOp)).length = 0 := by
        simp [encodeOps]
      rw [h0, Nat.add_zero] at hunk hcount
      simp only [isKnownOpcode, Bool.or_eq_false_iff,
        decide_eq_false_iff_not] at hunk
      obtain ⟨⟨⟨⟨⟨⟨⟨⟨k0, k1⟩, k2⟩, k3⟩, k4⟩, k9⟩, k11⟩, k12⟩, k13⟩ := hunk
      simp only [process_ncp_go]
      rw [if_pos hcount, if_neg k0, if_neg k1, if_neg k2, if_neg k3,
        if_neg k4, if_neg k12, if_neg k13, if_neg k9, if_neg k11]
      exact ⟨rfl, rfl⟩
  | cons op rest ih =>
    intro fuel s source d count i hlay hunk hcount hfu
    cases fuel with
    | zero => simp at hfu
    | succ m =>
    have hf' : rest.length < m := by
      simp only [List.length_cons] at hfu; omega
    rw [encodeOps_cons] at hlay
    obtain ⟨Lop, Lrest⟩ :=
      (layout_append d op.encode (encodeOps rest) i).mp hlay
    rw [encodeOps_cons, List.length_append] at hunk hcount
    cases op with
    | nop =>
      have hlen : (NcpOp.nop).encode.length = 1 := by simp [NcpOp.encode]
      have hb := layout_bytes d _ i Lop
      have e0 : d i % 256 = 0 := by
        simpa [NcpOp.encode] using hb 0 (by simp [NcpOp.encode])
      rw [hlen] at Lrest hunk hcount
      have hic : i < count := by omega
      have hunk' : isKnownOpcode
          (d (i + 1 + (encodeOps rest).length) % 256) = false := by
        rw [show i + 1 + (encodeOps rest).length =
          i + (1 + (encodeOps rest).length) by omega]
        exact hunk
      have IH := ih m s source d count (i + 1) Lrest hunk' (by omega) hf'
      simp only [process_ncp_go]
      rw [if_pos hic, if_pos e0]
      exact ⟨IH.1, IH.2⟩
    | rts r l k =>
      have hlen : (NcpOp.rts r l k).encode.length = 10 := by
        simp [NcpOp.encode, be32bytes]
      have hb := layout_bytes d _ i Lop
      have e0 : d i % 256 = 1 := by
        simpa [NcpOp.encode, be32bytes] using
          hb 0 (by simp [NcpOp.encode, be32bytes])
      have e1 : d (i + 1) % 256 = r / 16777216 % 256 := by
        simpa [NcpOp.encode, be32bytes] using
          hb 1 (by simp [NcpOp.encode, be32bytes])
      have e2 : d (i + 2) % 256 = r / 65536 % 256 := by
        simpa [NcpOp.encode, be32bytes] using
          hb 2 (by simp [NcpOp.encode, be32bytes])
      have e3 : d (i + 3) % 256 = r / 256 % 256 := by
        simpa [NcpOp.encode, be32bytes] using
          hb 3 (by simp [NcpOp.encode, be32bytes])
      have e4 : d (i + 4) % 256 = r % 256 := by
        simpa [NcpOp.encode, be32bytes] using
          hb 4 (by simp [NcpOp.encode, be32bytes])
      have e5 : d (i + 5) % 256 = l / 16777216 % 256 := by
        simpa [NcpOp.encode, be32bytes] using
          hb 5 (by simp [NcpOp.encode, be32bytes])
      have e6 : d (i + 6) % 256 = l / 65536 % 256 := by
        simpa [NcpOp.encode, be32bytes] using
          hb 6 (by simp [NcpOp.encode, be32bytes])
      have e7 : d (i + 7) % 256 = l / 256 % 256 := by
        simpa [NcpOp.encode, be32bytes] using
          hb 7 (by simp [NcpOp.encode, be32bytes])
      have e8 : d (i + 8) % 256 = l % 256 := by
        simpa [NcpOp.encode, be32bytes] using
          hb 8 (by simp [NcpOp.encode, be32bytes])
      have e9 : d (i + 9) % 256 = k % 256 := by
        simpa [NcpOp.encode, be32bytes] using
          hb 9 (by simp [NcpOp.encode, be32bytes])
      have hr32 := be32f_layout d (i + 1) r e1
        (by rw [show i + 1 + 1 = i + 2 by omega]; exact e2)
        (by rw [show i + 1 + 2 = i + 3 by omega]; exact e3)
        (by rw [show i + 1 + 3 = i + 4 by omega]; exact e4)
      have hl32 := be32f_layout d (i + 5) l e5
        (by rw [show i + 5 + 1 = i + 6 by omega]; exact e6)
        (by rw [show i + 5 + 2 = i + 7 by omega]; exact e7)
        (by rw [show i + 5 + 3 = i + 8 by omega]; exact e8)
      rw [hlen] at Lrest hunk hcount
      have hic : i < count := by omega
      have hunk' : isKnownOpcode
          (d (i + 10 + (encodeOps rest).length) % 256) = false := by
        rw [show i + 10 + (encodeOps rest).length =
          i + (10 + (encodeOps rest).length) by omega]
        exact hunk
      simp only [process_ncp_go]
      rw [if_pos hic, if_neg (show ¬(d i % 256 = 0) by simp [e0]),
        if_pos e0, hr32, hl32, e9]
      have IH := ih m (handle_rts s source (r % 4294967296)
        (l % 4294967296) (k % 256)).1 source d count (i + 10)
        Lrest hunk' (by omega) hf'
      exact ⟨IH.1, congrArg (_ ++ ·) IH.2⟩
    | str r l sz =>
      have hlen : (NcpOp.str r l sz).encode.length = 10 := by
        simp [NcpOp.encode, be32bytes]
      have hb := layout_bytes d _ i Lop
      have e0 : d i % 256 = 2 := by
        simpa [NcpOp.encode, be32bytes] using
          hb 0 (by simp [NcpOp.encode, be32bytes])
      have e1 : d (i + 1) % 256 = r / 16777216 % 256 := by
        simpa [NcpOp.encode, be32bytes] using
          hb 1 (by simp [NcpOp.encode, be32bytes])
      have e2 : d (i + 2) % 256 = r / 65536 % 256 := by
        simpa [NcpOp.encode, be32bytes] using
          hb 2 (by simp [NcpOp.encode, be32bytes])
      have e3 : d (i + 3) % 256 = r / 256 % 256 := by
        simpa [NcpOp.encode, be32bytes] using
          hb 3 (by simp [NcpOp.encode, be32bytes])
      have e4 : d (i + 4) % 256 = r % 256 := by
        simpa [NcpOp.encode, be32bytes] using
          hb 4 (by simp [NcpOp.encode, be32bytes])
      have e5 : d (i + 5) % 256 = l / 16777216 % 256 := by
        simpa [NcpOp.encode, be32bytes] using
          hb 5 (by simp [NcpOp.encode, be32bytes])
      have e6 : d (i + 6) % 256 = l / 65536 % 256 := by
        simpa [NcpOp.encode, be32bytes] using
          hb 6 (by simp [NcpOp.encode, be32bytes])
      have e7 : d (i + 7) % 256 = l / 256 % 256 := by
        simpa [NcpOp.encode, be32bytes] using
          hb 7 (by simp [NcpOp.encode, be32bytes])
      have e8 : d (i + 8) % 256 = l % 256 := by
        simpa [NcpOp.encode, be32bytes] using
          hb 8 (by simp [NcpOp.encode, be32bytes])
      have hr32 := be32f_layout d (i + 1) r e1
        (by rw [show i + 1 + 1 = i + 2 by omega]; exact e2)
        (by rw [show i + 1 + 2 = i + 3 by omega]; exact e3)
        (by rw [show i + 1 + 3 = i + 4 by omega]; exact e4)
      have hl32 := be32f_layout d (i + 5) l e5
        (by rw [show i + 5 + 1 = i + 6 by omega]; exact e6)
        (by rw [show i + 5 + 2 = i + 7 by omega]; exact e7)
        (by rw [show i + 5 + 3 = i + 8 by omega]; exact e8)
      rw [hlen] at Lrest hunk hcount
      have hic : i < count := by omega
      have hunk' : isKnownOpcode
          (d (i + 10 + (encodeOps rest).length) % 256) = false := by
        rw [show i + 10 + (encodeOps rest).length =
          i + (10 + (encodeOps rest).length) by omega]
        exact hunk
      simp only [process_ncp_go]
      rw [if_pos hic, if_neg (show ¬(d i % 256 = 0) by simp [e0]),
        if_neg (show ¬(d i % 256 = 1) by simp [e0]), if_pos e0, hr32, hl32]
      have IH := ih m (handle_str s source (r % 4294967296)
        (l % 4294967296)).1 source d count (i + 10)
        Lrest hunk' (by omega) hf'
      exact ⟨IH.1, congrArg (_ ++ ·) IH.2⟩
    | cls r l =>
      have hlen : (NcpOp.cls r l).encode.length = 9 := by
        simp [NcpOp.encode, be32bytes]
      have hb := layout_bytes d _ i Lop
      have e0 : d i % 256 = 3 := by
        simpa [NcpOp.encode, be32bytes] using
          hb 0 (by simp [NcpOp.encode, be32bytes])
      have e1 : d (i + 1) % 256 = r / 16777216 % 256 := by
        simpa [NcpOp.encode, be32bytes] using
          hb 1 (by simp [NcpOp.encode, be32bytes])
      have e2 : d (i + 2) % 256 = r / 65536 % 256 := by
        simpa [NcpOp.encode, be32bytes] using
          hb 2 (by simp [NcpOp.encode, be32bytes])
      have e3 : d (i + 3) % 256 = r / 256 % 256 := by
        simpa [NcpOp.encode, be32bytes] using
          hb 3 (by simp [NcpOp.encode, be32bytes])
      have e4 : d (i + 4) % 256 = r % 256 := by
        simpa [NcpOp.encode, be32bytes] using
          hb 4 (by simp [NcpOp.encode, be32bytes])
      have e5 : d (i + 5) % 256 = l / 16777216 % 256 := by
        simpa [NcpOp.encode, be32bytes] using
          hb 5 (by simp [NcpOp.encode, be32bytes])
      have e6 : d (i + 6) % 256 = l / 65536 % 256 := by
        simpa [NcpOp.encode, be32bytes] using
          hb 6 (by simp [NcpOp.encode, be32bytes])
      have e7 : d (i + 7) % 256 = l / 256 % 256 := by
        simpa [NcpOp.encode, be32bytes] using
          hb 7 (by simp [NcpOp.encode, be32bytes])
      have e8 : d (i + 8) % 256 = l % 256 := by
        simpa [NcpOp.encode, be32bytes] using
          hb 8 (by simp [NcpOp.encode, be32bytes])
      have hr32 := be32f_layout d (i + 1) r e1
        (by rw [show i + 1 + 1 = i + 2 by omega]; exact e2)
        (by rw [show i + 1 + 2 = i + 3 by omega]; exact e3)
        (by rw [show i + 1 + 3 = i + 4 by omega]; exact e4)
      have hl32 := be32f_layout d (i + 5) l e5
        (by rw [show i + 5 + 1 = i + 6 by omega]; exact e6)
        (by rw [show i + 5 + 2 = i + 7 by omega]; exact e7)
        (by rw [show i + 5 + 3 = i + 8 by omega]; exact e8)
      rw [hlen] at Lrest hunk hcount
      have hic : i < count := by omega
      have hunk' : isKnownOpcode
          (d (i + 9 + (encodeOps rest).length) % 256) = false := by
        rw [show i + 9 + (encodeOps rest).length =
          i + (9 + (encodeOps rest).length) by omega]
        exact hunk
      simp only [process_ncp_go]
      rw [if_pos hic, if_neg (show ¬(d i % 256 = 0) by simp [e0]),
        if_neg (show ¬(d i % 256 = 1) by simp [e0]),
        if_neg (show ¬(d i % 256 = 2) by simp [e0]), if_pos e0, hr32, hl32]
      have IH := ih m (handle_cls s source (r % 4294967296)
        (l % 4294967296)).1 source d count (i + 9)
        Lrest hunk' (by omega) hf'
      exact ⟨IH.1, congrArg (_ ++ ·) IH.2⟩
    | allOp k msgs b =>
      have hlen : (NcpOp.allOp k msgs b).encode.length = 8 := by
        simp [NcpOp.encode, be32bytes]
      have hb := layout_bytes d _ i Lop
      have e0 : d i % 256 = 4 := by
        simpa [NcpOp.encode, be32bytes] using
          hb 0 (by simp [NcpOp.encode, be32bytes])
      have e1 : d (i + 1) % 256 = k % 256 := by
        simpa [NcpOp.encode, be32bytes] using
          hb 1 (by simp [NcpOp.encode, be32bytes])
      have e2 : d (i + 2) % 256 = msgs / 256 % 256 := by
        simpa [NcpOp.encode, be32bytes] using
          hb 2 (by simp [NcpOp.encode, be32bytes])
      have e3 : d (i + 3) % 256 = msgs % 256 := by
        simpa [NcpOp.encode, be32bytes] using
          hb 3 (by simp [NcpOp.encode, be32bytes])
      have e4 : d (i + 4) % 256 = b / 16777216 % 256 := by
        simpa [NcpOp.encode, be32bytes] using
          hb 4 (by simp [NcpOp.encode, be32bytes])
      have e5 : d (i + 5) % 256 = b / 65536 % 256 := by
        simpa [NcpOp.encode, be32bytes] using
          hb 5 (by simp [NcpOp.encode, be32bytes])
      have e6 : d (i + 6) % 256 = b / 256 % 256 := by
        simpa [NcpOp.encode, be32bytes] using
          hb 6 (by simp [NcpOp.encode, be32bytes])
      have e7 : d (i + 7) % 256 = b % 256 := by
        simpa [NcpOp.encode, be32bytes] using
          hb 7 (by simp [NcpOp.encode, be32bytes])
      have hb32 := be32f_layout d (i + 4) b e4
        (by rw [show i + 4 + 1 = i + 5 by omega]; exact e5)
        (by rw [show i + 4 + 2 = i + 6 by omega]; exact e6)
        (by rw [show i + 4 + 3 = i + 7 by omega]; exact e7)
      have hm16 : msgs / 256 % 256 * 256 + msgs % 256 = msgs % 65536 := by
        omega
      rw [hlen] at Lrest hunk hcount
      have hic : i < count := by omega
      have hunk' : isKnownOpcode
          (d (i + 8 + (encodeOps rest).length) % 256) = false := by
        rw [show i + 8 + (encodeOps rest).length =
          i + (8 + (encodeOps rest).length) by omega]
        exact hunk
      simp only [process_ncp_go]
      rw [if_pos hic, if_neg (show ¬(d i % 256 = 0) by simp [e0]),
        if_neg (show ¬(d i % 256 = 1) by simp [e0]),
        if_neg (show ¬(d i % 256 = 2) by simp [e0]),
        if_neg (show ¬(d i % 256 = 3) by simp [e0]), if_pos e0,
        hb32, e1, e2, e3, hm16]
      have IH := ih m (handle_all s source (k % 256)
        (msgs % 65536) (b % 4294967296)).1 source d count (i + 8)
        Lrest hunk' (by omega) hf'
      exact ⟨IH.1, congrArg (_ ++ ·) IH.2⟩
    | eco =>
      have hlen : (NcpOp.eco).encode.length = 1 := by simp [NcpOp.encode]
      have hb := layout_bytes d _ i Lop
      have e0 : d i % 256 = 9 := by
        simpa [NcpOp.encode] using hb 0 (by simp [NcpOp.encode])
      rw [hlen] at Lrest hunk hcount
      have hic : i < count := by omega
      have hunk' : isKnownOpcode
          (d (i + 1 + (encodeOps rest).length) % 256) = false := by
        rw [show i + 1 + (encodeOps rest).length =
          i + (1 + (encodeOps rest).length) by omega]
        exact hunk
      have IH := ih m s source d count (i + 1) Lrest hunk' (by omega) hf'
      simp only [process_ncp_go]
      rw [if_pos hic, if_neg (show ¬(d i % 256 = 0) by simp [e0]),
        if_neg (show ¬(d i % 256 = 1) by simp [e0]),
        if_neg (show ¬(d i % 256 = 2) by simp [e0]),
        if_neg (show ¬(d i % 256 = 3) by simp [e0]),
        if_neg (show ¬(d i % 256 = 4) by simp [e0]),
        if_neg (show ¬(d i % 256 = 12) by simp [e0]),
        if_neg (show ¬(d i % 256 = 13) by simp [e0]), if_pos e0]
      exact ⟨IH.1, IH.2⟩
    | rst =>
      have hlen : (NcpOp.rst).encode.length = 1 := by simp [NcpOp.encode]
      have hb := layout_bytes d _ i Lop
      have e0 : d i % 256 = 12 := by
        simpa [NcpOp.encode] using hb 0 (by simp [NcpOp.encode])
      rw [hlen] at Lrest hunk hcount
      have hic : i < count := by omega
      have hunk' : isKnownOpcode
          (d (i + 1 + (encodeOps rest).length) % 256) = false := by
        rw [show i + 1 + (encodeOps rest).length =
          i + (1 + (encodeOps rest).length) by omega]
        exact hunk
      have IH := ih m s source d count (i + 1) Lrest hunk' (by omega) hf'
      simp only [process_ncp_go]
      rw [if_pos hic, if_neg (show ¬(d i % 256 = 0) by simp [e0]),
        if_neg (show ¬(d i % 256 = 1) by simp [e0]),
        if_neg (show ¬(d i % 256 = 2) by simp [e0]),
        if_neg (show ¬(d i % 256 = 3) by simp [e0]),
        if_neg (show ¬(d i % 256 = 4) by simp [e0]), if_pos e0]
      exact ⟨IH.1, congrArg (OutMsg.rrp source :: ·) IH.2⟩
    | rrp =>
      have hlen : (NcpOp.rrp).encode.length = 1 := by simp [NcpOp.encode]
      have hb := layout_bytes d _ i Lop
      have e0 : d i % 256 = 13 := by
        simpa [NcpOp.encode] using hb 0 (by simp [NcpOp.encode])
      rw [hlen] at Lrest hunk hcount
      have hic : i < count := by omega
      have hunk' : isKnownOpcode
          (d (i + 1 + (encodeOps rest).length) % 256) = false := by
        rw [show i + 1 + (encodeOps rest).length =
          i + (1 + (encodeOps rest).length) by omega]
        exact hunk
      have IH := ih m s source d count (i + 1) Lrest hunk' (by omega) hf'
      simp only [process_ncp_go]
      rw [if_pos hic, if_neg (show ¬(d i % 256 = 0) by simp [e0]),
        if_neg (show ¬(d i % 256 = 1) by simp [e0]),
        if_neg (show ¬(d i % 256 = 2) by simp [e0]),
        if_neg (show ¬(d i % 256 = 3) by simp [e0]),
        if_neg (show ¬(d i % 256 = 4) by simp [e0]),
        if_neg (show ¬(d i % 256 = 12) by simp [e0]), if_pos e0]
      exact ⟨IH.1, IH.2⟩

theorem length_le_encodeOps (ops : List NcpOp) :
    ops.length ≤ (encodeOps ops).length := by
  induction ops with
  | nil => simp [encodeOps]
  | cons op rest ih =>
    have h1 : 1 ≤ op.encode.length := by
      cases op <;> simp [NcpOp.encode, be32bytes]
    rw [encodeOps_cons]
    simp only [List.length_cons, List.length_append]
    omega

/-- Claim C8: for every inbound NCP control message laid out as a
    sequence of well-formed opcodes followed by an unknown opcode byte
    (and arbitrary further bytes up to an arbitrary declared count), the
    parser applies exactly the side effects of the valid opcodes
    preceding the unknown one, in order, and processes nothing at or
    after it; `process_ncp` is a total function, so the engine returns
    normally — no exception, no termination. -/
theorem C8_unknown_opcode_stops (s : Sys) (source : Nat) (d : Nat → Nat)
    (count : Nat) (ops : List NcpOp)
    (hlay : Layout d 0 (encodeOps ops))
    (hunk : isKnownOpcode (d (encodeOps ops).length % 256) = false)
    (hcount : (encodeOps ops).length < count) :
    (process_ncp s source d count).1 = (runOps s source ops).1 ∧
    (process_ncp s source d count).2.1 = (runOps s source ops).2 := by
  have hle := length_le_encodeOps ops
  exact process_ncp_go_runs ops count s source d count 0 hlay
    (by rw [Nat.zero_add]; exact hunk) (by omega) (by omega)

theorem C8_witness :
    (process_ncp (initSys true) 99 (pktOf c8msg) 22).1.conn.state =
      .ICP_PHASE1 ∧
    (process_ncp (initSys true) 99 (pktOf c8msg) 22).2.1 =
      [.str 99 1 42 32] := by
  have h := C8_unknown_opcode_stops (initSys true) 99 (pktOf c8msg) 22 c8ops
    (by decide) (by decide) (by decide)
  exact ⟨by rw [h.1]; decide, by rw [h.2]; decide⟩
